import Mathlib

/-!
Shallow embedding of the LMS repository: the course request handlers in
src/server/src/controllers/courseControllers.ts and the client data layer
(RTK Query api with the optimistic progress patch). JavaScript objects are
modelled as Lean structures, the document store as an association list keyed
by courseId, and the uuid collaborator as a counter-backed generator of
fresh non-empty identifiers.
-/

namespace LMS

/-- Model of the uuid collaborator: the identifier produced for generator
state g. It is always a non-empty string. -/
def freshUuid (g : Nat) : String :=
  "u" ++ Nat.repr g

/-- A JavaScript scalar as it can end up stored in the price attribute:
either a number or a string (the handler assigns the raw patch value when
the truthiness guard skips normalization). -/
inductive JsVal where
  | num (n : Int)
  | str (s : String)
deriving DecidableEq, Repr

/-- Digits of a decimal numeral folded into a Nat. -/
def digitsToNat (ds : List Char) : Nat :=
  ds.foldl (fun a c => a * 10 + (c.toNat - 48)) 0

/-- Longest leading run of decimal digits, or none when there is no digit. -/
def leadingDigits (cs : List Char) : Option Nat :=
  let ds := cs.takeWhile (fun c => c.isDigit)
  if ds.isEmpty then none else some (digitsToNat ds)

/-- Model of JavaScript parseInt on decimal input: leading whitespace is
skipped, an optional sign is read, then the longest digit run; NaN (none)
when no digit follows. Hexadecimal 0x forms are not modelled. -/
def parseIntJs (s : String) : Option Int :=
  let cs := s.data.dropWhile (fun c => c.isWhitespace)
  match cs with
  | '-' :: rest => (leadingDigits rest).map (fun n => -(n : Int))
  | '+' :: rest => (leadingDigits rest).map (fun n => (n : Int))
  | _ => (leadingDigits cs).map (fun n => (n : Int))

/-- A chapter as submitted in the update payload: chapterId may be absent
(none) or present; data stands for the fields carried through by the
object spread. -/
structure ChapterIn where
  chapterId : Option String
  data : String
deriving DecidableEq, Repr

/-- A section as submitted in the update payload: sectionId may be absent,
and chapters may be missing entirely (none), which makes the handler throw
when it dereferences section.chapters.map. -/
structure SectionIn where
  sectionId : Option String
  chapters : Option (List ChapterIn)
  data : String
deriving DecidableEq, Repr

/-- A stored chapter after normalization: chapterId is definite. -/
structure Chapter where
  chapterId : String
  data : String
deriving DecidableEq, Repr

/-- A stored section after normalization. -/
structure Section where
  sectionId : String
  chapters : List Chapter
  data : String
deriving DecidableEq, Repr

/-- The sections field of the update body: either a JSON-encoded string or
an already-structured value. JSON.parse is the runtime collaborator, so the
jsonString constructor carries the value the string decodes to. -/
inductive SectionsInput where
  | jsonString (v : List SectionIn)
  | structured (v : List SectionIn)
deriving DecidableEq, Repr

/-- Both branches of the typeof test feed the same decoded list to the
normalizing map. -/
def decodeSections : SectionsInput → List SectionIn
  | .jsonString v => v
  | .structured v => v

/-- JavaScript x || uuidv4() for a possibly-absent string x: a fresh
identifier is generated (advancing the counter) exactly when x is falsy,
that is absent or the empty string. -/
def jsOrUuid (v : Option String) (g : Nat) : String × Nat :=
  match v with
  | some s => if s = "" then (freshUuid g, g + 1) else (s, g)
  | none => (freshUuid g, g + 1)

/-- The chapter map inside the sections normalization:
chapterId := chapter.chapterId || uuidv4(), other fields spread through. -/
def normalizeChapters (g : Nat) : List ChapterIn → List Chapter × Nat
  | [] => ([], g)
  | c :: cs =>
    let p := jsOrUuid c.chapterId g
    let r := normalizeChapters p.2 cs
    (⟨p.1, c.data⟩ :: r.1, r.2)

/-- The sections map of updateCourse: sectionId is backfilled, then
section.chapters.map backfills chapter ids; a section whose chapters field
is missing makes the map throw (none), as the property access fails. -/
def normalizeSections (g : Nat) : List SectionIn → Option (List Section) × Nat
  | [] => (some [], g)
  | s :: ss =>
    let p := jsOrUuid s.sectionId g
    match s.chapters with
    | none => (none, p.2)
    | some chs =>
      let q := normalizeChapters p.2 chs
      match normalizeSections q.2 ss with
      | (some rest, g3) => (some (⟨p.1, q.1, s.data⟩ :: rest), g3)
      | (none, g3) => (none, g3)

/-- The stored Course record, mirroring the fields createCourse writes.
Enrollment entries are opaque to the claims and kept as strings. -/
structure Course where
  courseId : String
  teacherId : String
  teacherName : String
  title : String
  description : String
  category : String
  image : String
  price : JsVal
  level : String
  status : String
  sections : List Section
  enrollments : List String
deriving DecidableEq, Repr

/-- The document store table for Course, keyed by courseId. -/
abbrev Store := List (String × Course)

/-- Course.get: first entry with the given key. -/
def lookupC : Store → String → Option Course
  | [], _ => none
  | e :: rest, k => if e.1 = k then some e.2 else lookupC rest k

/-- course.save(): put the record under its courseId, replacing the entry
with that key when one exists. -/
def saveC : Store → Course → Store
  | [], c => [(c.courseId, c)]
  | e :: rest, c => if e.1 = c.courseId then (c.courseId, c) :: rest else e :: saveC rest c

/-- Course.delete(courseId): remove the entry with the given key. -/
def deleteC (st : Store) (k : String) : Store :=
  st.filter (fun e => ¬ e.1 = k)

/-- The update body as the handler reads it. Every field is optional
(absent keys are none); price arrives as a string because the route is a
multipart form; the identity fields can appear in the body since the
handler copies req.body wholesale. -/
structure UpdatePatch where
  title : Option String := none
  description : Option String := none
  category : Option String := none
  image : Option String := none
  level : Option String := none
  status : Option String := none
  courseId : Option String := none
  teacherId : Option String := none
  teacherName : Option String := none
  price : Option String := none
  sections : Option SectionsInput := none
deriving DecidableEq, Repr

/-- updateData after the two normalization passes, ready for
Object.assign. -/
structure NormPatch where
  title : Option String
  description : Option String
  category : Option String
  image : Option String
  level : Option String
  status : Option String
  courseId : Option String
  teacherId : Option String
  teacherName : Option String
  price : Option JsVal
  sections : Option (List Section)
deriving DecidableEq, Repr

/-- Outcome of the price normalization block of updateCourse. -/
inductive PriceNorm where
  | invalid
  | val (v : Option JsVal)
deriving DecidableEq, Repr

/-- The price block: if (updateData.price) runs only for a truthy value,
so an absent price passes through as absent and an empty string passes
through verbatim; a truthy string is parseInt-ed, NaN is rejected, and a
parsed value is multiplied by 100. -/
def normPrice : Option String → PriceNorm
  | none => .val none
  | some s =>
    if s = "" then .val (some (.str s))
    else
      match parseIntJs s with
      | none => .invalid
      | some k => .val (some (.num (k * 100)))

/-- Object.assign(course, updateData): present keys overwrite, absent keys
leave the stored field alone. -/
def objectAssign (c : Course) (p : NormPatch) : Course :=
  { courseId := p.courseId.getD c.courseId
    teacherId := p.teacherId.getD c.teacherId
    teacherName := p.teacherName.getD c.teacherName
    title := p.title.getD c.title
    description := p.description.getD c.description
    category := p.category.getD c.category
    image := p.image.getD c.image
    price := p.price.getD c.price
    level := p.level.getD c.level
    status := p.status.getD c.status
    sections := p.sections.getD c.sections
    enrollments := c.enrollments }

/-- Scalar fields of the patch paired with the normalized price and
sections values. -/
def mkNormPatch (p : UpdatePatch) (price : Option JsVal)
    (sections : Option (List Section)) : NormPatch :=
  { title := p.title
    description := p.description
    category := p.category
    image := p.image
    level := p.level
    status := p.status
    courseId := p.courseId
    teacherId := p.teacherId
    teacherName := p.teacherName
    price := price
    sections := sections }

/-- Response of updateCourse, named after its HTTP outcome: notFound 404,
forbidden 403, invalidPrice 400, serverError 500 (the catch branch), ok
200 with the merged record. -/
inductive UpdateResult where
  | notFound
  | forbidden
  | invalidPrice
  | serverError
  | ok (c : Course)
deriving DecidableEq, Repr

/-- Result, post-state of the store, and uuid generator state after an
updateCourse call. -/
structure UpdateOut where
  result : UpdateResult
  store : Store
  gen : Nat
deriving DecidableEq, Repr

/-- The updateCourse handler: fetch, ownership check, price block,
sections block, Object.assign, save. A thrown sections normalization lands
in the catch branch as serverError with nothing saved. -/
def updateCourse (st : Store) (courseId callerId : String)
    (patch : UpdatePatch) (g : Nat) : UpdateOut :=
  match lookupC st courseId with
  | none => ⟨.notFound, st, g⟩
  | some course =>
    if course.teacherId = callerId then
      match normPrice patch.price with
      | .invalid => ⟨.invalidPrice, st, g⟩
      | .val priceVal =>
        match patch.sections with
        | none =>
          let course' := objectAssign course (mkNormPatch patch priceVal none)
          ⟨.ok course', saveC st course', g⟩
        | some si =>
          match normalizeSections g (decodeSections si) with
          | (none, g') => ⟨.serverError, st, g'⟩
          | (some l, g') =>
            let course' := objectAssign course (mkNormPatch patch priceVal (some l))
            ⟨.ok course', saveC st course', g'⟩
    else ⟨.forbidden, st, g⟩

/-- Response of createCourse. -/
inductive CreateResult where
  | validationError
  | ok (c : Course)
deriving DecidableEq, Repr

/-- Result, post-state and generator state after createCourse. -/
structure CreateOut where
  result : CreateResult
  store : Store
  gen : Nat
deriving DecidableEq, Repr

/-- JavaScript falsiness of a possibly-absent string field. -/
def jsFalsyStr : Option String → Bool
  | none => true
  | some s => s = ""

/-- The createCourse handler: rejects a missing teacherId or teacherName,
otherwise stores a fresh course with the fixed default field values. -/
def createCourse (st : Store) (teacherId teacherName : Option String)
    (g : Nat) : CreateOut :=
  if jsFalsyStr teacherId ∨ jsFalsyStr teacherName then ⟨.validationError, st, g⟩
  else
    let c : Course :=
      { courseId := freshUuid g
        teacherId := teacherId.getD ""
        teacherName := teacherName.getD ""
        title := "Untitled Course"
        description := ""
        category := "Uncategorized"
        image := ""
        price := .num 0
        level := "Beginner"
        status := "Draft"
        sections := []
        enrollments := [] }
    ⟨.ok c, saveC st c, g + 1⟩

/-- Response of deleteCourse. -/
inductive DeleteResult where
  | notFound
  | forbidden
  | ok (c : Course)
deriving DecidableEq, Repr

/-- Result and post-state after deleteCourse. -/
structure DeleteOut where
  result : DeleteResult
  store : Store
deriving DecidableEq, Repr

/-- The deleteCourse handler: fetch, ownership check, delete; the response
carries the record as fetched before the deletion. -/
def deleteCourse (st : Store) (courseId callerId : String) : DeleteOut :=
  match lookupC st courseId with
  | none => ⟨.notFound, st⟩
  | some course =>
    if course.teacherId = callerId then ⟨.ok course, deleteC st courseId⟩
    else ⟨.forbidden, st⟩

/-- Response of getCourse. -/
inductive GetResult where
  | notFound
  | ok (c : Course)
deriving DecidableEq, Repr

/-- The getCourse handler. -/
def getCourse (st : Store) (courseId : String) : GetResult :=
  match lookupC st courseId with
  | none => .notFound
  | some c => .ok c

/-- The parameter object handed to the storage collaborator for the
pre-signed PUT URL. -/
structure S3Params where
  bucket : String
  key : String
  expires : Nat
  contentType : String
deriving DecidableEq, Repr

/-- Environment configuration read by the upload handler. -/
structure Env where
  s3BucketName : Option String
  cloudfrontDomain : String
deriving DecidableEq, Repr

/-- Response of getUploadVideoUrl: ok carries the signing parameters sent
to the storage collaborator (the signed URL string itself is collaborator
output) together with the derived public videoUrl. -/
inductive UploadResult where
  | validationError
  | serverError
  | ok (params : S3Params) (videoUrl : String)
deriving DecidableEq, Repr

/-- Result and generator state after getUploadVideoUrl. -/
structure UploadOut where
  result : UploadResult
  gen : Nat
deriving DecidableEq, Repr

/-- The getUploadVideoUrl handler: rejects a falsy fileName or fileType,
generates a unique id, builds the videos key, throws (serverError) when
the bucket name is not configured, otherwise asks the collaborator to sign
a 60-second putObject for that key and content type and derives the public
URL from the content-delivery domain and the same key. -/
def getUploadVideoUrl (env : Env) (fileName fileType : Option String)
    (g : Nat) : UploadOut :=
  if jsFalsyStr fileName ∨ jsFalsyStr fileType then ⟨.validationError, g⟩
  else
    let fn := fileName.getD ""
    let ft := fileType.getD ""
    let uniqueId := freshUuid g
    let s3Key := "videos/" ++ uniqueId ++ "/" ++ fn
    if jsFalsyStr env.s3BucketName then ⟨.serverError, g + 1⟩
    else
      let params : S3Params :=
        { bucket := env.s3BucketName.getD ""
          key := s3Key
          expires := 60
          contentType := ft }
      let videoUrl := env.cloudfrontDomain ++ "/videos/" ++ uniqueId ++ "/" ++ fn
      ⟨.ok params videoUrl, g + 1⟩

/-- Client-side per-chapter progress record. -/
structure ChapterProgress where
  chapterId : String
  completed : Bool
deriving DecidableEq, Repr

/-- Client-side per-section progress record, as submitted by the
progress-update mutation. -/
structure SectionProgress where
  sectionId : String
  chapters : List ChapterProgress
deriving DecidableEq, Repr

/-- The cached UserCourseProgress record: keyed by userId and courseId and
holding the sequence of per-section progress records. -/
structure UserCourseProgress where
  userId : String
  courseId : String
  enrollmentDate : String
  sections : List SectionProgress
deriving DecidableEq, Repr

/-- The recipe passed to updateQueryData by the progress-update mutation:
Object.assign(draft, spread of draft with sections replaced by
progressData.sections), so every field of the draft survives except
sections, which becomes the submitted list. -/
def progressRecipe (newSections : List SectionProgress)
    (draft : UserCourseProgress) : UserCourseProgress :=
  { draft with sections := newSections }

/-- The dispatch of api.util.updateQueryData over the cached entry for the
mutation key: patched is the cache entry after the recipe (a missing entry
is left missing), inverse is what undo restores, namely the entry exactly
as it was before the patch. -/
structure PatchResult where
  patched : Option UserCourseProgress
  inverse : Option UserCourseProgress
deriving DecidableEq, Repr

/-- Apply the optimistic recipe to the cached entry, recording the inverse
patch. -/
def updateQueryDataProgress (entry : Option UserCourseProgress)
    (newSections : List SectionProgress) : PatchResult :=
  ⟨entry.map (progressRecipe newSections), entry⟩

/-- patchResult.undo(): reapply the inverse patch. -/
def undoPatch (pr : PatchResult) : Option UserCourseProgress :=
  pr.inverse

/-- onQueryStarted of updateUserCourseProgress: the optimistic patch is
dispatched before the call resolves; when queryFulfilled rejects, the
catch branch undoes the patch. The returned value is the cache entry after
the whole flow. -/
def progressMutationFlow (entry : Option UserCourseProgress)
    (newSections : List SectionProgress) (querySucceeds : Bool) :
    Option UserCourseProgress :=
  let pr := updateQueryDataProgress entry newSections
  if querySucceeds then pr.patched else undoPatch pr

/-- Specification check relating one submitted chapter to one stored
chapter: the carried data is unchanged, a truthy submitted chapterId is
kept verbatim, and a falsy one is replaced by a non-empty identifier. -/
def chapterNormOk (cIn : ChapterIn) (c : Chapter) : Bool :=
  (c.data == cIn.data) &&
    match cIn.chapterId with
    | some s => if s = "" then !(c.chapterId == "") else c.chapterId == s
    | none => !(c.chapterId == "")

/-- chapterNormOk zipped over two lists of equal length. -/
def chaptersNormOk : List ChapterIn → List Chapter → Bool
  | [], [] => true
  | cIn :: cs, c :: cs2 => chapterNormOk cIn c && chaptersNormOk cs cs2
  | _, _ => false

/-- Specification check relating one submitted section to one stored
section, with the chapter check applied to the nested lists. -/
def sectionNormOk (sIn : SectionIn) (s : Section) : Bool :=
  (s.data == sIn.data) &&
    (match sIn.sectionId with
     | some t => if t = "" then !(s.sectionId == "") else s.sectionId == t
     | none => !(s.sectionId == "")) &&
    (match sIn.chapters with
     | some chs => chaptersNormOk chs s.chapters
     | none => false)

/-- sectionNormOk zipped over two lists of equal length. -/
def sectionsNormOk : List SectionIn → List Section → Bool
  | [], [] => true
  | sIn :: ss, s :: ss2 => sectionNormOk sIn s && sectionsNormOk ss ss2
  | _, _ => false

/-- A stored chapter has a non-empty identifier. -/
def chapterIdOk (c : Chapter) : Bool :=
  !(c.chapterId == "")

/-- A stored section and all its chapters have non-empty identifiers. -/
def sectionIdsOk (s : Section) : Bool :=
  !(s.sectionId == "") && s.chapters.all chapterIdOk

/-- Re-submission of a stored chapter as an update payload entry. -/
def chapterToIn (c : Chapter) : ChapterIn :=
  ⟨some c.chapterId, c.data⟩

/-- Re-submission of a stored section as an update payload entry. -/
def sectionToIn (s : Section) : SectionIn :=
  ⟨some s.sectionId, some (s.chapters.map chapterToIn), s.data⟩

/-- The price attribute holds a number. -/
def priceIsInt : JsVal → Bool
  | .num _ => true
  | .str _ => false

/-- A stored course used by the concrete witness scenarios. -/
def demoCourse : Course :=
  { courseId := "c1"
    teacherId := "T1"
    teacherName := "Alice"
    title := "Untitled Course"
    description := ""
    category := "Uncategorized"
    image := ""
    price := .num 0
    level := "Beginner"
    status := "Draft"
    sections := []
    enrollments := [] }

/-- A one-course store used by the concrete witness scenarios. -/
def demoStore : Store := [("c1", demoCourse)]

theorem freshUuid_ne_empty (g : Nat) : freshUuid g ≠ "" := by
  intro h
  have h2 := congrArg String.length h
  rw [freshUuid, String.length_append] at h2
  have h3 : ("u" : String).length = 1 := rfl
  have h4 : ("" : String).length = 0 := rfl
  omega

theorem lookupC_saveC (st : Store) (c : Course) :
    lookupC (saveC st c) c.courseId = some c := by
  induction st with
  | nil => simp [saveC, lookupC]
  | cons e rest ih =>
    by_cases h : e.1 = c.courseId
    · simp [saveC, h, lookupC]
    · simp [saveC, h, lookupC, ih]

theorem lookupC_deleteC (st : Store) (k : String) :
    lookupC (deleteC st k) k = none := by
  induction st with
  | nil => simp [deleteC, lookupC]
  | cons e rest ih =>
    by_cases h : e.1 = k
    · simpa [deleteC, h] using ih
    · simpa [deleteC, List.filter, h, lookupC] using ih

theorem normalizeChapters_normOk (chs : List ChapterIn) (g : Nat) :
    chaptersNormOk chs (normalizeChapters g chs).1 = true := by
  induction chs generalizing g with
  | nil => rfl
  | cons c cs ih =>
    cases hc : c.chapterId with
    | none =>
      simp [normalizeChapters, jsOrUuid, hc, chaptersNormOk, chapterNormOk,
        freshUuid_ne_empty, ih]
    | some s =>
      by_cases hs : s = "" <;>
        simp [normalizeChapters, jsOrUuid, hc, hs, chaptersNormOk, chapterNormOk,
          freshUuid_ne_empty, ih]

theorem normalizeChapters_idsOk (chs : List ChapterIn) (g : Nat) :
    (normalizeChapters g chs).1.all chapterIdOk = true := by
  induction chs generalizing g with
  | nil => rfl
  | cons c cs ih =>
    cases hc : c.chapterId with
    | none =>
      simp [normalizeChapters, jsOrUuid, hc, chapterIdOk, freshUuid_ne_empty, ih]
    | some s =>
      by_cases hs : s = "" <;>
        simp [normalizeChapters, jsOrUuid, hc, hs, chapterIdOk, freshUuid_ne_empty, ih]

theorem normalizeChapters_roundtrip (l : List Chapter) (g : Nat)
    (h : l.all chapterIdOk = true) :
    normalizeChapters g (l.map chapterToIn) = (l, g) := by
  induction l generalizing g with
  | nil => rfl
  | cons c cs ih =>
    rw [List.all_cons, Bool.and_eq_true] at h
    obtain ⟨h1, h2⟩ := h
    simp only [chapterIdOk, Bool.not_eq_true', beq_eq_false_iff_ne, ne_eq] at h1
    simp [normalizeChapters, chapterToIn, jsOrUuid, h1, ih g h2]

theorem normalizeSections_normOk (ss : List SectionIn) (g g' : Nat)
    (out : List Section) (h : normalizeSections g ss = (some out, g')) :
    sectionsNormOk ss out = true := by
  induction ss generalizing g g' out with
  | nil =>
    rw [normalizeSections] at h
    injection h with h1 h2
    injection h1 with h1
    subst h1
    rfl
  | cons s ss ih =>
    rw [normalizeSections] at h
    cases hch : s.chapters with
    | none =>
      rw [hch] at h
      dsimp only at h
      injection h with h1 h2
      exact absurd h1 (by simp)
    | some chs =>
      rw [hch] at h
      dsimp only at h
      rcases hrec : normalizeSections
          (normalizeChapters (jsOrUuid s.sectionId g).2 chs).2 ss with ⟨orec, grec⟩
      rw [hrec] at h
      cases orec with
      | none =>
        injection h with h1 h2
        exact absurd h1 (by simp)
      | some rest =>
        injection h with h1 h2
        injection h1 with h1
        subst h1
        rw [sectionsNormOk, Bool.and_eq_true]
        refine ⟨?_, ih _ _ _ hrec⟩
        rw [sectionNormOk]
        cases hid : s.sectionId with
        | none =>
          simp [jsOrUuid, hid, hch, freshUuid_ne_empty, normalizeChapters_normOk]
        | some t =>
          by_cases ht : t = "" <;>
            simp [jsOrUuid, hid, ht, hch, freshUuid_ne_empty, normalizeChapters_normOk]

theorem normalizeSections_idsOk (ss : List SectionIn) (g g' : Nat)
    (out : List Section) (h : normalizeSections g ss = (some out, g')) :
    out.all sectionIdsOk = true := by
  induction ss generalizing g g' out with
  | nil =>
    rw [normalizeSections] at h
    injection h with h1 h2
    injection h1 with h1
    subst h1
    rfl
  | cons s ss ih =>
    rw [normalizeSections] at h
    cases hch : s.chapters with
    | none =>
      rw [hch] at h
      dsimp only at h
      injection h with h1 h2
      exact absurd h1 (by simp)
    | some chs =>
      rw [hch] at h
      dsimp only at h
      rcases hrec : normalizeSections
          (normalizeChapters (jsOrUuid s.sectionId g).2 chs).2 ss with ⟨orec, grec⟩
      rw [hrec] at h
      cases orec with
      | none =>
        injection h with h1 h2
        exact absurd h1 (by simp)
      | some rest =>
        injection h with h1 h2
        injection h1 with h1
        subst h1
        rw [List.all_cons, Bool.and_eq_true]
        refine ⟨?_, ih _ _ _ hrec⟩
        rw [sectionIdsOk, Bool.and_eq_true]
        refine ⟨?_, normalizeChapters_idsOk chs (jsOrUuid s.sectionId g).2⟩
        cases hid : s.sectionId with
        | none => simp [jsOrUuid, hid, freshUuid_ne_empty]
        | some t =>
          by_cases ht : t = "" <;> simp [jsOrUuid, hid, ht, freshUuid_ne_empty]

theorem normalizeSections_roundtrip (l : List Section) (g : Nat)
    (h : l.all sectionIdsOk = true) :
    normalizeSections g (l.map sectionToIn) = (some l, g) := by
  induction l generalizing g with
  | nil => rfl
  | cons s ssl ih =>
    rw [List.all_cons, Bool.and_eq_true] at h
    obtain ⟨h1, h2⟩ := h
    rw [sectionIdsOk, Bool.and_eq_true] at h1
    obtain ⟨hid, hch⟩ := h1
    simp only [Bool.not_eq_true', beq_eq_false_iff_ne, ne_eq] at hid
    rw [List.map_cons, normalizeSections]
    simp only [sectionToIn, jsOrUuid, hid, if_false]
    rw [normalizeChapters_roundtrip s.chapters g hch, ih g h2]

theorem normalizeSections_throw (ss : List SectionIn) (g : Nat)
    (h : ss.any (fun s => s.chapters.isNone) = true) :
    (normalizeSections g ss).1 = none := by
  induction ss generalizing g with
  | nil => simp at h
  | cons s ss ih =>
    rw [List.any_cons, Bool.or_eq_true] at h
    rw [normalizeSections]
    cases hch : s.chapters with
    | none => rfl
    | some chs =>
      dsimp only
      rcases hrec : normalizeSections
          (normalizeChapters (jsOrUuid s.sectionId g).2 chs).2 ss with ⟨orec, grec⟩
      cases orec with
      | none => rfl
      | some rest =>
        cases h with
        | inl h => rw [hch] at h; simp at h
        | inr h =>
          have hnone := ih (normalizeChapters (jsOrUuid s.sectionId g).2 chs).2 h
          rw [hrec] at hnone
          simp at hnone


theorem updateCourse_ok_inv (st : Store) (cid caller : String)
    (patch : UpdatePatch) (g : Nat) (c' : Course) (st' : Store) (g' : Nat)
    (hok : updateCourse st cid caller patch g = ⟨.ok c', st', g'⟩) :
    ∃ course priceVal, lookupC st cid = some course ∧
      course.teacherId = caller ∧ normPrice patch.price = .val priceVal ∧
      st' = saveC st c' ∧
      ((patch.sections = none ∧
          c' = objectAssign course (mkNormPatch patch priceVal none) ∧ g' = g) ∨
        (∃ si l, patch.sections = some si ∧
          normalizeSections g (decodeSections si) = (some l, g') ∧
          c' = objectAssign course (mkNormPatch patch priceVal (some l)))) := by
  rw [updateCourse] at hok
  cases hlk : lookupC st cid with
  | none => rw [hlk] at hok; exact absurd hok (by simp)
  | some course =>
    rw [hlk] at hok
    dsimp only at hok
    by_cases hauth : course.teacherId = caller
    · rw [if_pos hauth] at hok
      cases hpr : normPrice patch.price with
      | invalid => rw [hpr] at hok; exact absurd hok (by simp)
      | val priceVal =>
        rw [hpr] at hok
        dsimp only at hok
        cases hsec : patch.sections with
        | none =>
          rw [hsec] at hok
          dsimp only at hok
          injection hok with h1 h2 h3
          injection h1 with h1
          subst h1
          exact ⟨course, priceVal, rfl, hauth, rfl, h2.symm,
            Or.inl ⟨rfl, rfl, h3.symm⟩⟩
        | some si =>
          rw [hsec] at hok
          dsimp only at hok
          rcases hrec : normalizeSections g (decodeSections si) with ⟨orec, grec⟩
          rw [hrec] at hok
          cases orec with
          | none => exact absurd hok (by simp)
          | some l =>
            dsimp only at hok
            injection hok with h1 h2 h3
            injection h1 with h1
            subst h1
            subst h3
            exact ⟨course, priceVal, rfl, hauth, rfl, h2.symm,
              Or.inr ⟨si, l, rfl, hrec, rfl⟩⟩
    · rw [if_neg hauth] at hok
      exact absurd hok (by simp)

/-- C1: every sections list submitted to course update, whether a
JSON-encoded string or a structured value, is stored with every section
and chapter that lacked an identifier assigned a new non-empty one and
every submitted identifier retained unchanged, and re-submitting the
already-normalized structure reproduces it with no identifier change. -/
theorem C1_sections_identifier_normalization (st : Store) (cid caller : String)
    (patch : UpdatePatch) (g : Nat) (si : SectionsInput) (c' : Course)
    (st' : Store) (g' : Nat) (hsec : patch.sections = some si)
    (hok : updateCourse st cid caller patch g = ⟨.ok c', st', g'⟩) :
    sectionsNormOk (decodeSections si) c'.sections = true ∧
    ∀ g2 : Nat, normalizeSections g2 (c'.sections.map sectionToIn) =
      (some c'.sections, g2) := by
  obtain ⟨course, priceVal, hlk, hauth, hpr, hst, hcase⟩ :=
    updateCourse_ok_inv st cid caller patch g c' st' g' hok
  cases hcase with
  | inl h =>
    rw [hsec] at h
    exact absurd h.1 (by simp)
  | inr h =>
    obtain ⟨si2, l, hsec2, hnorm, hc⟩ := h
    rw [hsec] at hsec2
    injection hsec2 with hsi
    subst hsi
    have hsecs : c'.sections = l := by
      rw [hc]
      rfl
    rw [hsecs]
    exact ⟨normalizeSections_normOk _ _ _ _ hnorm,
      fun g2 => normalizeSections_roundtrip l g2
        (normalizeSections_idsOk _ _ _ _ hnorm)⟩

/-- Witness for C1 at a concrete submitted structure. -/
theorem C1_witness :
    sectionsNormOk
      (decodeSections (.structured [⟨some "A", some [⟨none, "d"⟩], "x"⟩]))
      ({ demoCourse with
          sections := [⟨"A", [⟨"u0", "d"⟩], "x"⟩] } : Course).sections = true ∧
    normalizeSections 5
      (({ demoCourse with
          sections := [⟨"A", [⟨"u0", "d"⟩], "x"⟩] } : Course).sections.map sectionToIn) =
      (some ({ demoCourse with
          sections := [⟨"A", [⟨"u0", "d"⟩], "x"⟩] } : Course).sections, 5) := by
  have h := C1_sections_identifier_normalization demoStore "c1" "T1"
    { sections := some (.structured [⟨some "A", some [⟨none, "d"⟩], "x"⟩]) } 0
    (.structured [⟨some "A", some [⟨none, "d"⟩], "x"⟩])
    { demoCourse with sections := [⟨"A", [⟨"u0", "d"⟩], "x"⟩] }
    [("c1", { demoCourse with sections := [⟨"A", [⟨"u0", "d"⟩], "x"⟩] })] 1
    rfl (by decide)
  exact ⟨h.1, h.2 5⟩

/-- C2: a course update or delete whose caller differs from the stored
teacherId yields Forbidden and leaves the store untouched. -/
theorem C2_forbidden_no_mutation (st : Store) (cid caller : String)
    (patch : UpdatePatch) (g : Nat) (c : Course)
    (hlk : lookupC st cid = some c) (hne : c.teacherId ≠ caller) :
    updateCourse st cid caller patch g = ⟨.forbidden, st, g⟩ ∧
    deleteCourse st cid caller = ⟨.forbidden, st⟩ := by
  constructor
  · rw [updateCourse, hlk]
    dsimp only
    rw [if_neg hne]
  · rw [deleteCourse, hlk]
    dsimp only
    rw [if_neg hne]

/-- Witness for C2 with a caller distinct from the owner. -/
theorem C2_witness :
    updateCourse demoStore "c1" "T2" {} 0 = ⟨.forbidden, demoStore, 0⟩ ∧
    deleteCourse demoStore "c1" "T2" = ⟨.forbidden, demoStore⟩ :=
  C2_forbidden_no_mutation demoStore "c1" "T2" {} 0 demoCourse rfl (by decide)


/-- C3 as stated is false: an empty-string price is non-numeric
(parseInt gives NaN), yet the call does not yield ValidationError; the
truthiness guard skips validation and the update succeeds, storing the
empty string verbatim, so the stored course changes. -/
theorem C3_counterexample :
    parseIntJs "" = none ∧
    updateCourse demoStore "c1" "T1" { price := some "" } 0 =
      ⟨.ok { demoCourse with price := .str "" },
        [("c1", { demoCourse with price := .str "" })], 0⟩ ∧
    lookupC (updateCourse demoStore "c1" "T1" { price := some "" } 0).store
      "c1" ≠ some demoCourse := by
  refine ⟨rfl, by decide, by decide⟩

/-- C3 amended: a price string that parseInt accepts is stored as 100
times the parsed integer; a non-empty price string that parseInt rejects
yields ValidationError with the store unchanged; an empty-string price
bypasses validation and is stored verbatim. -/
theorem C3_price_string_normalization :
    (∀ st cid caller patch g s k c' st' g', patch.price = some s →
      parseIntJs s = some k →
      updateCourse st cid caller patch g = ⟨.ok c', st', g'⟩ →
      c'.price = .num (k * 100) ∧ lookupC st' c'.courseId = some c') ∧
    (∀ st cid caller patch g s c, patch.price = some s → s ≠ "" →
      parseIntJs s = none → lookupC st cid = some c → c.teacherId = caller →
      updateCourse st cid caller patch g = ⟨.invalidPrice, st, g⟩) ∧
    (∀ st cid caller patch g c' st' g', patch.price = some "" →
      updateCourse st cid caller patch g = ⟨.ok c', st', g'⟩ →
      c'.price = .str "") := by
  refine ⟨?_, ?_, ?_⟩
  · intro st cid caller patch g s k c' st' g' hp hparse hok
    obtain ⟨course, priceVal, hlk, hauth, hpr, hst, hcase⟩ :=
      updateCourse_ok_inv st cid caller patch g c' st' g' hok
    rw [hp] at hpr
    by_cases hs : s = ""
    · subst hs
      rw [show parseIntJs "" = none from rfl] at hparse
      exact absurd hparse (by simp)
    · rw [normPrice, if_neg hs, hparse] at hpr
      injection hpr with hpv
      subst hpv
      have hcp : c'.price = .num (k * 100) := by
        cases hcase with
        | inl h => rw [h.2.1]; rfl
        | inr h => obtain ⟨si, l, _, _, hc⟩ := h; rw [hc]; rfl
      refine ⟨hcp, ?_⟩
      rw [hst]
      exact lookupC_saveC st c'
  · intro st cid caller patch g s c hp hs hparse hlk hauth
    have hnp : normPrice patch.price = .invalid := by
      rw [hp, normPrice, if_neg hs, hparse]
    rw [updateCourse, hlk]
    dsimp only
    rw [if_pos hauth, hnp]
  · intro st cid caller patch g c' st' g' hp hok
    obtain ⟨course, priceVal, hlk, hauth, hpr, hst, hcase⟩ :=
      updateCourse_ok_inv st cid caller patch g c' st' g' hok
    rw [hp] at hpr
    rw [show normPrice (some "") = .val (some (.str "")) from rfl] at hpr
    injection hpr with hpv
    subst hpv
    cases hcase with
    | inl h => rw [h.2.1]; rfl
    | inr h => obtain ⟨si, l, _, _, hc⟩ := h; rw [hc]; rfl

/-- Witness for the three price behaviors at concrete inputs. -/
theorem C3_witness :
    (({ demoCourse with price := .num 2500 } : Course).price = .num 2500 ∧
      lookupC [("c1", { demoCourse with price := .num 2500 })]
        ({ demoCourse with price := .num 2500 } : Course).courseId =
        some { demoCourse with price := .num 2500 }) ∧
    updateCourse demoStore "c1" "T1" { price := some "abc" } 0 =
      ⟨.invalidPrice, demoStore, 0⟩ ∧
    ({ demoCourse with price := .str "" } : Course).price = .str "" := by
  refine ⟨?_, ?_, ?_⟩
  · exact C3_price_string_normalization.1 demoStore "c1" "T1"
      { price := some "25" } 0 "25" 25 { demoCourse with price := .num 2500 }
      [("c1", { demoCourse with price := .num 2500 })] 0 rfl (by decide) (by decide)
  · exact C3_price_string_normalization.2.1 demoStore "c1" "T1"
      { price := some "abc" } 0 "abc" demoCourse rfl (by decide) (by decide)
      rfl (by decide)
  · exact C3_price_string_normalization.2.2 demoStore "c1" "T1"
      { price := some "" } 0 { demoCourse with price := .str "" }
      [("c1", { demoCourse with price := .str "" })] 0 rfl (by decide)

/-- C4 as stated is false: a successful update that submits the price
string -5 stores the negative number -500. -/
theorem C4_counterexample :
    updateCourse demoStore "c1" "T1" { price := some "-5" } 0 =
      ⟨.ok { demoCourse with price := .num (-500) },
        [("c1", { demoCourse with price := .num (-500) })], 0⟩ ∧
    ((-500 : Int) < 0) := by
  exact ⟨by decide, by decide⟩

/-- C4 amended: creation stores price 0, and a successful update whose
patch either omits the price or submits a non-empty price string leaves
the stored price a number (possibly negative); an empty-string price is
the one input that stores a non-number. -/
theorem C4_price_number_invariant :
    (∀ st tid tname g c' st' g',
      createCourse st tid tname g = ⟨.ok c', st', g'⟩ → c'.price = .num 0) ∧
    (∀ st cid caller patch g c c' st' g', lookupC st cid = some c →
      priceIsInt c.price = true → patch.price ≠ some "" →
      updateCourse st cid caller patch g = ⟨.ok c', st', g'⟩ →
      priceIsInt c'.price = true) := by
  constructor
  · intro st tid tname g c' st' g' h
    rw [createCourse] at h
    by_cases hf : jsFalsyStr tid = true ∨ jsFalsyStr tname = true
    · rw [if_pos hf] at h
      exact absurd h (by simp)
    · rw [if_neg hf] at h
      dsimp only at h
      injection h with h1 h2 h3
      injection h1 with h1
      rw [← h1]
  · intro st cid caller patch g c c' st' g' hlk hint hne hok
    obtain ⟨course, priceVal, hlk2, hauth, hpr, hst, hcase⟩ :=
      updateCourse_ok_inv st cid caller patch g c' st' g' hok
    rw [hlk] at hlk2
    injection hlk2 with hc2
    subst hc2
    have hpv : priceVal = none ∨ ∃ m, priceVal = some (.num m) := by
      cases hp : patch.price with
      | none =>
        rw [hp] at hpr
        injection hpr with h1
        exact Or.inl h1.symm
      | some s =>
        have hs : s ≠ "" := fun he => hne (he ▸ hp)
        rw [hp, normPrice, if_neg hs] at hpr
        cases hparse : parseIntJs s with
        | none => rw [hparse] at hpr; exact absurd hpr (by simp)
        | some k =>
          rw [hparse] at hpr
          injection hpr with h1
          exact Or.inr ⟨k * 100, h1.symm⟩
    have hcp : c'.price = priceVal.getD c.price := by
      cases hcase with
      | inl h => rw [h.2.1]; rfl
      | inr h => obtain ⟨si, l, _, _, hc⟩ := h; rw [hc]; rfl
    cases hpv with
    | inl h => rw [hcp, h]; exact hint
    | inr h => obtain ⟨m, hm⟩ := h; rw [hcp, hm]; rfl

/-- Witness for C4 amended: creation stores 0, and an update with price 7
keeps the stored price a number. -/
theorem C4_witness :
    (Course.price
      { courseId := freshUuid 0
        teacherId := "T1"
        teacherName := "Alice"
        title := "Untitled Course"
        description := ""
        category := "Uncategorized"
        image := ""
        price := .num 0
        level := "Beginner"
        status := "Draft"
        sections := []
        enrollments := [] } = .num 0) ∧
    priceIsInt ({ demoCourse with price := .num 700 } : Course).price = true := by
  constructor
  · exact C4_price_number_invariant.1 [] (some "T1") (some "Alice") 0
      { courseId := freshUuid 0
        teacherId := "T1"
        teacherName := "Alice"
        title := "Untitled Course"
        description := ""
        category := "Uncategorized"
        image := ""
        price := .num 0
        level := "Beginner"
        status := "Draft"
        sections := []
        enrollments := [] }
      [(freshUuid 0,
        { courseId := freshUuid 0
          teacherId := "T1"
          teacherName := "Alice"
          title := "Untitled Course"
          description := ""
          category := "Uncategorized"
          image := ""
          price := .num 0
          level := "Beginner"
          status := "Draft"
          sections := []
          enrollments := [] })] 1 (by decide)
  · exact C4_price_number_invariant.2 demoStore "c1" "T1" { price := some "7" }
      0 demoCourse { demoCourse with price := .num 700 }
      [("c1", { demoCourse with price := .num 700 })] 0 rfl rfl (by decide)
      (by decide)

/-- C5 as stated is false: the handler copies the whole request body onto
the stored record, so a patch carrying a teacherId overwrites the stored
owner identity on a successful update. -/
theorem C5_counterexample :
    updateCourse demoStore "c1" "T1" { teacherId := some "evil" } 0 =
      ⟨.ok { demoCourse with teacherId := "evil" },
        [("c1", { demoCourse with teacherId := "evil" })], 0⟩ ∧
    ({ demoCourse with teacherId := "evil" } : Course).teacherId ≠
      demoCourse.teacherId := by
  exact ⟨by decide, by decide⟩

/-- C5 amended: when the patch does not itself carry courseId, teacherId
or teacherName, a successful update leaves those three stored fields equal
to their pre-update values. -/
theorem C5_identity_fields_frame (st : Store) (cid caller : String)
    (patch : UpdatePatch) (g : Nat) (c c' : Course) (st' : Store) (g' : Nat)
    (hlk : lookupC st cid = some c)
    (h1 : patch.courseId = none) (h2 : patch.teacherId = none)
    (h3 : patch.teacherName = none)
    (hok : updateCourse st cid caller patch g = ⟨.ok c', st', g'⟩) :
    c'.courseId = c.courseId ∧ c'.teacherId = c.teacherId ∧
      c'.teacherName = c.teacherName := by
  obtain ⟨course, priceVal, hlk2, hauth, hpr, hst, hcase⟩ :=
    updateCourse_ok_inv st cid caller patch g c' st' g' hok
  rw [hlk] at hlk2
  injection hlk2 with hc2
  subst hc2
  cases hcase with
  | inl h =>
    rw [h.2.1]
    simp [objectAssign, mkNormPatch, h1, h2, h3]
  | inr h =>
    obtain ⟨si, l, _, _, hc⟩ := h
    rw [hc]
    simp [objectAssign, mkNormPatch, h1, h2, h3]

/-- Witness for C5 amended at a patch touching only the title. -/
theorem C5_witness :
    ({ demoCourse with title := "New" } : Course).courseId =
      demoCourse.courseId ∧
    ({ demoCourse with title := "New" } : Course).teacherId =
      demoCourse.teacherId ∧
    ({ demoCourse with title := "New" } : Course).teacherName =
      demoCourse.teacherName :=
  C5_identity_fields_frame demoStore "c1" "T1" { title := some "New" } 0
    demoCourse { demoCourse with title := "New" }
    [("c1", { demoCourse with title := "New" })] 0 rfl rfl rfl rfl (by decide)


/-- C6: a progress-update mutation that fails after the optimistic patch
leaves the cached progress entry equal to its pre-patch value. -/
theorem C6_optimistic_rollback (entry : Option UserCourseProgress)
    (newSections : List SectionProgress) :
    progressMutationFlow entry newSections false = entry := rfl

/-- C7 as stated is false: the optimistic patch replaces the cached
sections array wholesale; the cached record held sections s1 and s2, the
submitted data named only s1, and after the patch s2 is gone. -/
theorem C7_counterexample :
    ((updateQueryDataProgress
        (some ⟨"u1", "co1", "2024-01-01", [⟨"s1", []⟩, ⟨"s2", []⟩]⟩)
        [⟨"s1", [⟨"ch1", true⟩]⟩]).patched.map
      (fun q => q.sections.map SectionProgress.sectionId)) = some ["s1"] ∧
    ([(⟨"s1", []⟩ : SectionProgress), ⟨"s2", []⟩].map SectionProgress.sectionId
      = ["s1", "s2"]) ∧
    ([(⟨"s1", [⟨"ch1", true⟩]⟩ : SectionProgress)].map SectionProgress.sectionId
      = ["s1"]) := by
  exact ⟨by decide, by decide, by decide⟩

/-- C7 amended: before the network call resolves the optimistic patch
rewrites the cached record with the submitted sections list replacing the
stored one (no per-section merge), while every other field of the record
survives unchanged. -/
theorem C7_optimistic_replacement (draft : UserCourseProgress)
    (newSections : List SectionProgress) :
    (progressRecipe newSections draft).sections = newSections ∧
    (progressRecipe newSections draft).userId = draft.userId ∧
    (progressRecipe newSections draft).courseId = draft.courseId ∧
    (progressRecipe newSections draft).enrollmentDate = draft.enrollmentDate ∧
    (updateQueryDataProgress (some draft) newSections).patched =
      some (progressRecipe newSections draft) :=
  ⟨rfl, rfl, rfl, rfl, rfl⟩

/-- C8: deleting an absent course yields NotFound; deleting an existing
course as its owner returns the record as it was and removes it, so a
subsequent get of the same courseId yields NotFound. -/
theorem C8_delete_semantics :
    (∀ st cid caller, lookupC st cid = none →
      deleteCourse st cid caller = ⟨.notFound, st⟩) ∧
    (∀ st cid caller c, lookupC st cid = some c → c.teacherId = caller →
      deleteCourse st cid caller = ⟨.ok c, deleteC st cid⟩ ∧
      getCourse (deleteCourse st cid caller).store cid = .notFound) := by
  constructor
  · intro st cid caller h
    rw [deleteCourse, h]
  · intro st cid caller c hlk hauth
    have hd : deleteCourse st cid caller = ⟨.ok c, deleteC st cid⟩ := by
      rw [deleteCourse, hlk]
      dsimp only
      rw [if_pos hauth]
    refine ⟨hd, ?_⟩
    rw [hd]
    dsimp only
    rw [getCourse, lookupC_deleteC]

/-- Witness for C8 on the one-course store. -/
theorem C8_witness :
    deleteCourse demoStore "missing" "T1" = ⟨.notFound, demoStore⟩ ∧
    (deleteCourse demoStore "c1" "T1" = ⟨.ok demoCourse, deleteC demoStore "c1"⟩ ∧
      getCourse (deleteCourse demoStore "c1" "T1").store "c1" = .notFound) :=
  ⟨C8_delete_semantics.1 demoStore "missing" "T1" rfl,
    C8_delete_semantics.2 demoStore "c1" "T1" demoCourse rfl rfl⟩

/-- C9: a missing fileName or fileType yields ValidationError; otherwise
the signing request uses a 60-second expiry, the declared content type and
a key of the form videos/uniqueId/fileName, and the returned public
videoUrl is the content-delivery domain followed by that same key. -/
theorem C9_upload_url :
    (∀ env fn ft g, jsFalsyStr fn = true ∨ jsFalsyStr ft = true →
      getUploadVideoUrl env fn ft g = ⟨.validationError, g⟩) ∧
    (∀ env fn ft g b, env.s3BucketName = some b → b ≠ "" → fn ≠ "" → ft ≠ "" →
      ∃ params videoUrl,
        getUploadVideoUrl env (some fn) (some ft) g = ⟨.ok params videoUrl, g + 1⟩ ∧
        params.bucket = b ∧
        params.key = "videos/" ++ freshUuid g ++ "/" ++ fn ∧
        params.expires = 60 ∧
        params.contentType = ft ∧
        videoUrl = env.cloudfrontDomain ++ "/" ++ params.key) := by
  constructor
  · intro env fn ft g h
    rw [getUploadVideoUrl, if_pos]
    rcases h with h | h
    · exact Or.inl h
    · exact Or.inr h
  · intro env fn ft g b hb hbne hfn hft
    have hfal : ¬ (jsFalsyStr (some fn) = true ∨ jsFalsyStr (some ft) = true) := by
      simp [jsFalsyStr, hfn, hft]
    rw [getUploadVideoUrl, if_neg hfal]
    dsimp only
    have hbfal : jsFalsyStr env.s3BucketName = false := by
      rw [hb]
      simp [jsFalsyStr, hbne]
    rw [hbfal]
    simp only [Bool.false_eq_true, if_false]
    refine ⟨_, _, rfl, ?_, rfl, rfl, rfl, ?_⟩
    · rw [hb]
      rfl
    · dsimp only
      simp only [String.append_assoc]
      rfl

/-- Witness for C9 at a concrete file and configuration. -/
theorem C9_witness :
    getUploadVideoUrl ⟨some "bucket", "cdn"⟩ none (some "video/mp4") 0 =
      ⟨.validationError, 0⟩ ∧
    ∃ params videoUrl,
      getUploadVideoUrl ⟨some "bucket", "cdn"⟩ (some "f.mp4") (some "video/mp4") 0 =
        ⟨.ok params videoUrl, 0 + 1⟩ ∧
      params.bucket = "bucket" ∧
      params.key = "videos/" ++ freshUuid 0 ++ "/" ++ "f.mp4" ∧
      params.expires = 60 ∧
      params.contentType = "video/mp4" ∧
      videoUrl = Env.cloudfrontDomain ⟨some "bucket", "cdn"⟩ ++ "/" ++ params.key :=
  ⟨C9_upload_url.1 ⟨some "bucket", "cdn"⟩ none (some "video/mp4") 0 (Or.inl rfl),
    C9_upload_url.2 ⟨some "bucket", "cdn"⟩ "f.mp4" "video/mp4" 0 "bucket" rfl
      (by decide) (by decide) (by decide)⟩

/-- C10: an update whose sections value contains a section with no
chapters array is not rejected as ValidationError; the dereference throws,
the generic catch answers with the 500 envelope, and the store is
unchanged. -/
theorem C10_missing_chapters_server_error (st : Store) (cid caller : String)
    (patch : UpdatePatch) (g : Nat) (c : Course) (si : SectionsInput)
    (hlk : lookupC st cid = some c) (hauth : c.teacherId = caller)
    (hpr : normPrice patch.price ≠ .invalid)
    (hsec : patch.sections = some si)
    (hbad : (decodeSections si).any (fun s => s.chapters.isNone) = true) :
    (updateCourse st cid caller patch g).result = .serverError ∧
    (updateCourse st cid caller patch g).store = st := by
  rw [updateCourse, hlk]
  dsimp only
  rw [if_pos hauth]
  cases hnp : normPrice patch.price with
  | invalid => exact absurd hnp hpr
  | val priceVal =>
    dsimp only
    rw [hsec]
    dsimp only
    rcases hrec : normalizeSections g (decodeSections si) with ⟨orec, grec⟩
    have hthrow := normalizeSections_throw (decodeSections si) g hbad
    rw [hrec] at hthrow
    dsimp only at hthrow
    subst hthrow
    exact ⟨rfl, rfl⟩

/-- Witness for C10 with one section lacking a chapters array. -/
theorem C10_witness :
    (updateCourse demoStore "c1" "T1"
      { sections := some (.structured [⟨some "A", none, "x"⟩]) } 0).result =
      .serverError ∧
    (updateCourse demoStore "c1" "T1"
      { sections := some (.structured [⟨some "A", none, "x"⟩]) } 0).store =
      demoStore :=
  C10_missing_chapters_server_error demoStore "c1" "T1"
    { sections := some (.structured [⟨some "A", none, "x"⟩]) } 0 demoCourse
    (.structured [⟨some "A", none, "x"⟩]) rfl rfl (by decide) rfl (by decide)

end LMS
